import Mathlib

/-!
# Verification of the opulent-browser workflow control loop

Shallow embedding of the evaluation-driven retry control loop of the
opulent-browser repository: the evaluation step and its retry gate
(`src/steps/evaluation-step.ts`), the enhanced workflow's bounded retry
controller and its fallback paths
(`src/workflows/browser-automation-workflow-enhanced.ts`), the planner's
schema/repair/fallback pipeline (`src/TESTING-WITH-REAL-API.md` source
listing of `generateExecutionPlan`), the streaming step's tool-choice and
tool-execution tracking (`src/lib/streaming-enhanced.ts`), and the
side-panel's confirmation gate (`src/sidepanel.tsx`).

Numbers that are JS floats in the source are modelled as rationals; the
properties proved here (ranges, formulas, control decisions) are robust to
that choice.  Asynchrony is immaterial to these claims: every `await` in
the modelled code is a sequential suspension point, so the code is embedded
as pure sequential functions over explicit environment inputs (model
outcomes, approval answers).
-/

namespace Opulent

/-- Quality enum of `EvaluationStepOutput.quality`
(`src/steps/evaluation-step.ts`). -/
inductive Quality where
  | excellent
  | good
  | acceptable
  | poor
  | failed
deriving DecidableEq, Repr

/-- `retryStrategy` record of `EvaluationStepOutput`
(`src/steps/evaluation-step.ts`). -/
structure RetryStrategy where
  approach : String
  focusAreas : List String
  modifications : List String
deriving DecidableEq, Repr

/-- `EvaluationStepOutput` (`src/steps/evaluation-step.ts`): the evaluator's
verdict.  Scores are JS numbers, modelled as rationals; `duration` is the
elapsed milliseconds. -/
structure EvaluationStepOutput where
  quality : Quality
  score : ℚ
  completeness : ℚ
  correctness : ℚ
  issues : List String
  successes : List String
  recommendations : List String
  shouldRetry : Bool
  shouldProceed : Bool
  retryStrategy : Option RetryStrategy
  duration : ℚ
deriving DecidableEq, Repr

/-- `shouldImmediatelyRetry` (`src/steps/evaluation-step.ts` lines 341-348):
`shouldRetry && quality === 'poor' && issues.length > 0 &&
retryStrategy !== undefined`. -/
def shouldImmediatelyRetry (evaluation : EvaluationStepOutput) : Bool :=
  evaluation.shouldRetry &&
  decide (evaluation.quality = Quality.poor) &&
  decide (evaluation.issues.length > 0) &&
  evaluation.retryStrategy.isSome

/-- The object produced by the evaluator's schema-constrained generation
call (`EvaluationSchema` in `src/steps/evaluation-step.ts`): the
`EvaluationStepOutput` minus the locally measured `duration`. -/
structure EvalObject where
  quality : Quality
  score : ℚ
  completeness : ℚ
  correctness : ℚ
  issues : List String
  successes : List String
  recommendations : List String
  shouldRetry : Bool
  shouldProceed : Bool
  retryStrategy : Option RetryStrategy
deriving DecidableEq, Repr

/-- Error information the `catch` block of `evaluationStep` extracts from a
thrown error (`errorDetails` in `src/steps/evaluation-step.ts`). -/
structure EvalError where
  message : String
  name : Option String
  typeName : String
  isAISDKError : Bool
deriving DecidableEq, Repr

/-- Spread `...result.object` plus the measured `duration`
(`src/steps/evaluation-step.ts` line 246-249). -/
def evalOutputOfObject (o : EvalObject) (duration : ℚ) : EvaluationStepOutput :=
  { quality := o.quality
    score := o.score
    completeness := o.completeness
    correctness := o.correctness
    issues := o.issues
    successes := o.successes
    recommendations := o.recommendations
    shouldRetry := o.shouldRetry
    shouldProceed := o.shouldProceed
    retryStrategy := o.retryStrategy
    duration := duration }

/-- The fixed fallback evaluation `evaluationStep` returns from its `catch`
block (`src/steps/evaluation-step.ts` lines 302-322). -/
def evaluationFallback (e : EvalError) (duration : ℚ) : EvaluationStepOutput :=
  { quality := Quality.poor
    score := 0.5
    completeness := 0.5
    correctness := 0.5
    issues :=
      [ "Evaluation failed: " ++ e.message
      , "Error type: " ++ (e.name.getD e.typeName)
      , if e.isAISDKError then "AI SDK error detected" else "Non-AI SDK error" ]
    successes := []
    recommendations :=
      [ "Retry evaluation with different model or criteria"
      , "Check model configuration and API keys"
      , "Verify execution result structure" ]
    shouldRetry := false
    shouldProceed := true
    retryStrategy := none
    duration := duration }

/-- `evaluationStep` (`src/steps/evaluation-step.ts` lines 79-324), with the
outcome of the `generateObject` call made an explicit input: `.ok o` models
a successful structured generation, `.error e` models the call throwing.
The function is total: an `.error` outcome yields the fallback evaluation
instead of propagating. -/
def evaluationStep (gen : Except EvalError EvalObject) (duration : ℚ) :
    EvaluationStepOutput :=
  match gen with
  | .ok o => evalOutputOfObject o duration
  | .error e => evaluationFallback e duration

end Opulent

namespace Opulent

/-- C1: `shouldImmediatelyRetry(evaluation)` is true iff `shouldRetry` is
true, `quality` is `poor`, `issues` is non-empty and `retryStrategy` is
present; in particular it is false whenever quality is not `poor`, or
`retryStrategy` is absent, or `issues` is empty, even when `shouldRetry` is
true. -/
theorem shouldImmediatelyRetry_iff (evaluation : EvaluationStepOutput) :
    (shouldImmediatelyRetry evaluation = true ↔
      (evaluation.shouldRetry = true ∧ evaluation.quality = Quality.poor ∧
        evaluation.issues ≠ [] ∧ evaluation.retryStrategy ≠ none)) ∧
    (evaluation.quality ≠ Quality.poor → shouldImmediatelyRetry evaluation = false) ∧
    (evaluation.retryStrategy = none → shouldImmediatelyRetry evaluation = false) ∧
    (evaluation.issues = [] → shouldImmediatelyRetry evaluation = false) := by
  constructor
  · simp only [shouldImmediatelyRetry, Bool.and_eq_true, decide_eq_true_eq,
      Option.isSome_iff_ne_none, List.length_pos]
    tauto
  · refine ⟨?_, ?_, ?_⟩ <;> intro h <;>
      simp [shouldImmediatelyRetry, h]

/-- Witness for C1 at a concrete evaluation: quality `good` with
`shouldRetry = true` does not trigger the retry gate. -/
theorem shouldImmediatelyRetry_iff_witness :
    shouldImmediatelyRetry
      { quality := Quality.good, score := 0.9, completeness := 1,
        correctness := 1, issues := ["i"], successes := [],
        recommendations := [], shouldRetry := true, shouldProceed := true,
        retryStrategy := some ⟨"a", ["f"], ["m"]⟩, duration := 0 } = false :=
  (shouldImmediatelyRetry_iff _).2.1 (by decide)

/-- C4: whenever the evaluator's structured-generation call fails (throws),
`evaluationStep` does not raise to its caller (it is a total function of
the generation outcome) but returns the fixed fallback evaluation with
`quality = poor`, `score = 0.5`, `completeness = 0.5`, `correctness = 0.5`,
`shouldRetry = false` and `shouldProceed = true`. -/
theorem evaluationStep_error_fallback (e : EvalError) (duration : ℚ) :
    (evaluationStep (.error e) duration).quality = Quality.poor ∧
    (evaluationStep (.error e) duration).score = 0.5 ∧
    (evaluationStep (.error e) duration).completeness = 0.5 ∧
    (evaluationStep (.error e) duration).correctness = 0.5 ∧
    (evaluationStep (.error e) duration).shouldRetry = false ∧
    (evaluationStep (.error e) duration).shouldProceed = true := by
  refine ⟨rfl, rfl, rfl, rfl, rfl, rfl⟩

end Opulent

namespace Opulent

/-- JS `Array.prototype.join(sep)`: elements interleaved with `sep`,
`""` on the empty array. -/
def joinWith (sep : String) : List String → String
  | [] => ""
  | [x] => x
  | x :: y :: xs => x ++ sep ++ joinWith sep (y :: xs)

/-- `needle` occurs as a contiguous substring of `s` (JS
`String.prototype.includes`). -/
def ContainsStr (s needle : String) : Prop :=
  ∃ a b : List Char, s.data = a ++ needle.data ++ b

theorem containsStr_self (s : String) : ContainsStr s s :=
  ⟨[], [], by simp⟩

theorem containsStr_append_left {s needle : String} (t : String)
    (h : ContainsStr s needle) : ContainsStr (s ++ t) needle := by
  obtain ⟨a, b, hab⟩ := h
  exact ⟨a, b ++ t.data, by simp [hab]⟩

theorem containsStr_append_right {t needle : String} (s : String)
    (h : ContainsStr t needle) : ContainsStr (s ++ t) needle := by
  obtain ⟨a, b, hab⟩ := h
  exact ⟨s.data ++ a, b, by simp [hab]⟩

theorem containsStr_joinWith {needle : String} (sep : String) :
    ∀ {l : List String}, needle ∈ l → ContainsStr (joinWith sep l) needle
  | [x], h => by
    rcases List.mem_singleton.mp h with rfl
    exact containsStr_self needle
  | x :: y :: ys, h => by
    rcases List.mem_cons.mp h with rfl | h
    · exact containsStr_append_left _ (containsStr_append_left _ (containsStr_self needle))
    · exact containsStr_append_right _ (containsStr_joinWith sep h)

end Opulent

namespace Opulent

/-- The slice of a plan step the enhanced workflow's fallback-summary path
reads (`step.action`, `step.reasoning` in
`src/workflows/browser-automation-workflow-enhanced.ts` line 628-630). -/
structure WorkflowPlanStep where
  action : String
  reasoning : String
deriving DecidableEq, Repr

/-- The slice of `planning.result.plan` the retry loop reads. -/
structure WorkflowPlan where
  steps : List WorkflowPlanStep
deriving DecidableEq, Repr

/-- The slice of the Execution Loop's result (`streaming`) the retry
controller and summarization phase read. -/
structure ExecResult where
  fullText : String
  finishReason : String
deriving DecidableEq, Repr

/-- Outcome of one `enhancedStreamingStep` invocation, as seen by the
workflow's `try`/`catch`: a result, the `AI_NoOutputGeneratedError` /
"no output generated" error class, or any other thrown error. -/
inductive StreamOutcome where
  | ok (result : ExecResult)
  | noOutputError (message : String)
  | otherError (message : String)
deriving DecidableEq, Repr

/-- `planning.result.plan.steps.map((step, idx) => `  ${idx + 1}. ${step.action} — ${step.reasoning}`)`
(`browser-automation-workflow-enhanced.ts` lines 628-630). -/
def plannedStepsLines : List WorkflowPlanStep → Nat → List String
  | [], _ => []
  | s :: rest, idx =>
    ("  " ++ toString (idx + 1) ++ ". " ++ s.action ++ " — " ++ s.reasoning)
      :: plannedStepsLines rest (idx + 1)

/-- `fallbackContent` (`browser-automation-workflow-enhanced.ts` lines
632-639): the fallback summary text built when the model returns no
output.  `plannedSteps || '  (No steps available)'` substitutes the
placeholder when the joined step list is the empty string. -/
def fallbackContent (plan : WorkflowPlan) : String :=
  let plannedSteps := joinWith "\n" (plannedStepsLines plan.steps 0)
  joinWith "\n"
    [ "⚠️ Unable to continue automated browser execution because the language model returned no output."
    , ""
    , "Final summary (fallback): planned workflow steps were:"
    , if plannedSteps = "" then "  (No steps available)" else plannedSteps
    , ""
    , "Please verify your OpenRouter credentials and network access, then retry the workflow." ]

/-- The synthetic `streaming` result installed on the no-output path
(`browser-automation-workflow-enhanced.ts` lines 657-681), restricted to
the fields of `ExecResult`. -/
def fallbackStreaming (plan : WorkflowPlan) : ExecResult :=
  { fullText := fallbackContent plan
    finishReason := "fallback_no_output" }

/-- `fallbackEvaluation` installed on the no-output path
(`browser-automation-workflow-enhanced.ts` lines 683-710). -/
def noOutputFallbackEvaluation : EvaluationStepOutput :=
  { quality := Quality.poor
    score := 0.1
    completeness := 0
    correctness := 0
    issues :=
      [ "The language model returned no output, so the workflow could not proceed automatically."
      , "Confirm OpenRouter API connectivity and credentials before retrying." ]
    successes := []
    recommendations :=
      [ "Verify the OPENROUTER_API_KEY configuration and ensure the key is active."
      , "Confirm the environment can reach https://openrouter.ai/api/v1."
      , "Retry once the model returns responses consistently." ]
    shouldRetry := false
    shouldProceed := false
    retryStrategy := some
      { approach := "Resolve connectivity issues before initiating another automated run."
        focusAreas := ["API connectivity", "Credential validity", "Network access"]
        modifications :=
          [ "Set a valid OpenRouter API key via the settings panel."
          , "Allow network access to openrouter.ai during automated runs."
          , "Re-run the workflow after confirming the model responds to simple prompts." ] }
    duration := 0 }

/-- The fallback evaluation the workflow builds when `evaluationStep`
itself throws (`browser-automation-workflow-enhanced.ts` lines 780-791). -/
def workflowEvalFallback (message : String) : EvaluationStepOutput :=
  { quality := Quality.poor
    score := 0.5
    completeness := 0.5
    correctness := 0.5
    issues := ["Evaluation threw error: " ++ message]
    successes := []
    recommendations := ["Manual review recommended"]
    shouldRetry := false
    shouldProceed := true
    retryStrategy := none
    duration := 0 }

/-- `let maxRetries = 2` (`browser-automation-workflow-enhanced.ts` line
454). -/
def maxRetries : Nat := 2

/-- The retry block appended to the system prompt on a retry
(`browser-automation-workflow-enhanced.ts` line 817).  `retryStrategy?.x`
on an absent strategy interpolates as the string `"undefined"` in JS. -/
def retryBlock (retryCount mr : Nat) (ev : EvaluationStepOutput) : String :=
  "\n\n**RETRY ATTEMPT " ++ toString retryCount ++ "/" ++ toString mr ++
  "**\n\n**Previous Issues:**\n" ++ joinWith "\n" ev.issues ++
  "\n\n**Retry Strategy:**\n" ++
  (match ev.retryStrategy with
   | some r => r.approach
   | none => "undefined") ++
  "\n\n**Focus Areas:**\n" ++
  (match ev.retryStrategy with
   | some r => joinWith "\n" r.focusAreas
   | none => "undefined")

/-- The synthetic user message pushed before a retry
(`browser-automation-workflow-enhanced.ts` lines 820-824). -/
def retryUserMessage : String :=
  "Please retry the execution with improvements based on the evaluation feedback."

/-- Observable outcome of the retry loop: how many times the Execution
Loop ran, the system prompt each attempt received, the synthetic user
messages pushed, and the final `evaluationResult` / `streaming` /
`fallbackSummaryText` / escaped error. -/
structure LoopState where
  attempts : Nat
  promptsUsed : List String
  pushedUserMessages : List String
  evaluation : Option EvaluationStepOutput
  streaming : Option ExecResult
  fallbackSummaryText : Option String
  errorThrown : Option String
deriving DecidableEq, Repr

/-- One pass of the `while (retryCount <= maxRetries)` retry loop of
`browserAutomationWorkflowEnhanced`
(`browser-automation-workflow-enhanced.ts` lines 463-842), starting from
retry count `rc` and the current system prompt.  `st rc` is the outcome of
the `enhancedStreamingStep` call of the iteration with that retry count;
`evalF rc` is the outcome of its `evaluationStep` call (`.error` models the
step throwing, handled by the workflow's inner `catch`).  A non-no-output
streaming error is re-thrown (`errorThrown`); the no-output error installs
the fallback streaming result and fallback evaluation and breaks. -/
def runLoopAux (st : Nat → StreamOutcome)
    (evalF : Nat → Except String EvaluationStepOutput)
    (plan : WorkflowPlan) (rc : Nat) (prompt : String) : LoopState :=
  if maxRetries < rc then
    -- `while` guard fails: loop body never runs from this state
    { attempts := 0, promptsUsed := [], pushedUserMessages := [],
      evaluation := none, streaming := none, fallbackSummaryText := none,
      errorThrown := none }
  else
    match st rc with
    | .otherError m =>
      -- `if (!noOutputError) throw error;`
      { attempts := 1, promptsUsed := [prompt], pushedUserMessages := [],
        evaluation := none, streaming := none, fallbackSummaryText := none,
        errorThrown := some m }
    | .noOutputError _ =>
      -- fallback summary + fallback evaluation, then `break`
      { attempts := 1, promptsUsed := [prompt], pushedUserMessages := [],
        evaluation := some noOutputFallbackEvaluation,
        streaming := some (fallbackStreaming plan),
        fallbackSummaryText := some (fallbackContent plan),
        errorThrown := none }
    | .ok s =>
      let ev := match evalF rc with
        | .ok e => e
        | .error m => workflowEvalFallback m
      if h : shouldImmediatelyRetry ev = true ∧ rc < maxRetries then
        -- `retryCount++`, augment the prompt, push the retry user turn, loop
        let rest := runLoopAux st evalF plan (rc + 1)
          (prompt ++ retryBlock (rc + 1) maxRetries ev)
        { attempts := 1 + rest.attempts,
          promptsUsed := prompt :: rest.promptsUsed,
          pushedUserMessages := retryUserMessage :: rest.pushedUserMessages,
          evaluation := rest.evaluation, streaming := rest.streaming,
          fallbackSummaryText := rest.fallbackSummaryText,
          errorThrown := rest.errorThrown }
      else
        -- quality acceptable or max retries reached: `break`
        { attempts := 1, promptsUsed := [prompt], pushedUserMessages := [],
          evaluation := some ev, streaming := some s,
          fallbackSummaryText := none, errorThrown := none }
termination_by maxRetries + 1 - rc
decreasing_by simp only [maxRetries] at *; omega

/-- The retry loop as entered by the workflow: `retryCount = 0` and the
initial system prompt. -/
def runRetryLoop (st : Nat → StreamOutcome)
    (evalF : Nat → Except String EvaluationStepOutput)
    (plan : WorkflowPlan) (prompt : String) : LoopState :=
  runLoopAux st evalF plan 0 prompt

/-- Result slice of the summarization phase. -/
structure SummarizationResult where
  summary : String
  success : Bool
deriving DecidableEq, Repr

/-- The summarization phase (`browser-automation-workflow-enhanced.ts`
lines 860-881): when the execution result carries
`finishReason === 'fallback_no_output'` and a fallback summary text exists,
the AI summarizer is skipped and the fallback text is reused verbatim;
otherwise `summarizationStep` (an external model call, passed here as
`summarizerCall`) runs.  The boolean in the pair records whether
`summarizerCall` was invoked. -/
def summarizationPhase (streaming : ExecResult)
    (fallbackSummaryText : Option String)
    (summarizerCall : Unit → SummarizationResult) :
    SummarizationResult × Bool :=
  match fallbackSummaryText with
  | some t =>
    if streaming.finishReason = "fallback_no_output" then
      ({ summary := t, success := false }, false)
    else (summarizerCall (), true)
  | none => (summarizerCall (), true)

end Opulent

namespace Opulent

theorem runLoopAux_attempts_le (st : Nat → StreamOutcome)
    (evalF : Nat → Except String EvaluationStepOutput) (plan : WorkflowPlan) :
    ∀ (k rc : Nat) (prompt : String), maxRetries + 1 - rc ≤ k →
      (runLoopAux st evalF plan rc prompt).attempts ≤ maxRetries + 1 - rc := by
  intro k
  induction k with
  | zero =>
    intro rc prompt hk
    have hrc : maxRetries < rc := by omega
    unfold runLoopAux
    simp [hrc]
  | succ n ih =>
    intro rc prompt hk
    unfold runLoopAux
    by_cases hrc : maxRetries < rc
    · simp [hrc]
    · simp only [if_neg hrc]
      cases hst : st rc with
      | otherError m => simp; omega
      | noOutputError m => simp; omega
      | ok s =>
        simp only
        split
        next h =>
          have hlt : rc < maxRetries := h.2
          have := ih (rc + 1) (prompt ++
            retryBlock (rc + 1) maxRetries
              (match evalF rc with
               | .ok e => e
               | .error m => workflowEvalFallback m)) (by omega)
          simp only
          omega
        next h =>
          simp
          omega

theorem runLoopAux_attempts_pos (st : Nat → StreamOutcome)
    (evalF : Nat → Except String EvaluationStepOutput) (plan : WorkflowPlan)
    (rc : Nat) (prompt : String) (hrc : rc ≤ maxRetries) :
    1 ≤ (runLoopAux st evalF plan rc prompt).attempts := by
  unfold runLoopAux
  have hrc' : ¬ maxRetries < rc := by omega
  simp only [if_neg hrc']
  cases st rc with
  | otherError m => simp
  | noOutputError m => simp
  | ok s =>
    simp only
    split
    · simp only
      omega
    · simp

/-- C2: for every sequence of streaming and evaluator outcomes — including
one in which every evaluation satisfies `shouldImmediatelyRetry` — the
retry loop of `browserAutomationWorkflowEnhanced` terminates (it is a total
function) and performs at least one and at most `maxRetries + 1 = 3`
Execution Loop invocations, i.e. at most `maxRetries = 2` additional
attempts beyond the first. -/
theorem retryLoop_attempt_bound (st : Nat → StreamOutcome)
    (evalF : Nat → Except String EvaluationStepOutput) (plan : WorkflowPlan)
    (prompt : String) :
    1 ≤ (runRetryLoop st evalF plan prompt).attempts ∧
    (runRetryLoop st evalF plan prompt).attempts ≤ maxRetries + 1 ∧
    maxRetries = 2 := by
  unfold runRetryLoop
  refine ⟨runLoopAux_attempts_pos st evalF plan 0 prompt (by decide), ?_, rfl⟩
  have := runLoopAux_attempts_le st evalF plan (maxRetries + 1) 0 prompt (by omega)
  omega

end Opulent

namespace Opulent

/-- C3: if the Execution Loop's model call fails with the no-output error
class on the first attempt, the workflow installs a well-formed execution
result whose `finishReason` is `'fallback_no_output'`, the retry loop exits
immediately with the fallback evaluation (exactly one execution attempt,
no retries), and the summarization phase skips the summarizer's model call
(`false` invocation flag, for every possible summarizer) and reuses the
fallback text verbatim as the summary. -/
theorem noOutput_short_circuits (st : Nat → StreamOutcome)
    (evalF : Nat → Except String EvaluationStepOutput) (plan : WorkflowPlan)
    (prompt : String) (m : String) (h : st 0 = .noOutputError m) :
    (runRetryLoop st evalF plan prompt).attempts = 1 ∧
    (runRetryLoop st evalF plan prompt).streaming = some (fallbackStreaming plan) ∧
    (fallbackStreaming plan).finishReason = "fallback_no_output" ∧
    (fallbackStreaming plan).fullText = fallbackContent plan ∧
    (runRetryLoop st evalF plan prompt).evaluation = some noOutputFallbackEvaluation ∧
    (runRetryLoop st evalF plan prompt).fallbackSummaryText = some (fallbackContent plan) ∧
    ∀ summarizerCall : Unit → SummarizationResult,
      summarizationPhase (fallbackStreaming plan) (some (fallbackContent plan))
        summarizerCall =
      ({ summary := fallbackContent plan, success := false }, false) := by
  unfold runRetryLoop
  unfold runLoopAux
  rw [h]
  refine ⟨rfl, rfl, rfl, rfl, rfl, rfl, ?_⟩
  intro summarizerCall
  rfl

/-- Witness for C3: a concrete environment whose first streaming attempt
raises the no-output error. -/
theorem noOutput_short_circuits_witness :
    (runRetryLoop (fun _ => .noOutputError "No output generated")
        (fun _ => .error "unused") ⟨[⟨"navigate", "open the site"⟩]⟩
        "SYSTEM").attempts = 1 ∧
    (runRetryLoop (fun _ => .noOutputError "No output generated")
        (fun _ => .error "unused") ⟨[⟨"navigate", "open the site"⟩]⟩
        "SYSTEM").streaming =
      some (fallbackStreaming ⟨[⟨"navigate", "open the site"⟩]⟩) ∧
    (fallbackStreaming ⟨[⟨"navigate", "open the site"⟩]⟩).finishReason =
      "fallback_no_output" := by
  have h := noOutput_short_circuits (fun _ => .noOutputError "No output generated")
    (fun _ => .error "unused") ⟨[⟨"navigate", "open the site"⟩]⟩ "SYSTEM"
    "No output generated" rfl
  exact ⟨h.1, h.2.1, h.2.2.1⟩

end Opulent

namespace Opulent

theorem runLoopAux_promptsUsed_first (st : Nat → StreamOutcome)
    (evalF : Nat → Except String EvaluationStepOutput) (plan : WorkflowPlan)
    (rc : Nat) (prompt : String) (hrc : rc ≤ maxRetries) :
    (runLoopAux st evalF plan rc prompt).promptsUsed.get? 0 = some prompt := by
  unfold runLoopAux
  have hrc' : ¬ maxRetries < rc := by omega
  simp only [if_neg hrc']
  cases st rc with
  | otherError m => rfl
  | noOutputError m => rfl
  | ok s =>
    simp only
    split
    · rfl
    · rfl

/-- C5: when the first evaluation satisfies `shouldImmediatelyRetry` (so a
retry attempt remains, this being attempt 1 of the `maxRetries = 2`
allowed), the retry controller re-invokes the Execution Loop with the
system prompt augmented by the retry block: the second attempt's prompt is
the original prompt followed by a block containing the literal string
`"RETRY ATTEMPT 1/2"`, every string in the evaluation's `issues`, the
`retryStrategy`'s `approach`, and every `focusAreas` entry; and a synthetic
user message asking for an improved retry is pushed. -/
theorem retry_prompt_augmentation (st : Nat → StreamOutcome)
    (evalF : Nat → Except String EvaluationStepOutput) (plan : WorkflowPlan)
    (prompt : String) (s0 : ExecResult) (ev : EvaluationStepOutput)
    (rs : RetryStrategy) (hst : st 0 = .ok s0) (hev : evalF 0 = .ok ev)
    (hretry : shouldImmediatelyRetry ev = true)
    (hrs : ev.retryStrategy = some rs) :
    (runRetryLoop st evalF plan prompt).promptsUsed.get? 1 =
      some (prompt ++ retryBlock 1 maxRetries ev) ∧
    (runRetryLoop st evalF plan prompt).pushedUserMessages.head? =
      some retryUserMessage ∧
    retryUserMessage =
      "Please retry the execution with improvements based on the evaluation feedback." ∧
    ContainsStr (prompt ++ retryBlock 1 maxRetries ev) "RETRY ATTEMPT 1/2" ∧
    (∀ i ∈ ev.issues, ContainsStr (prompt ++ retryBlock 1 maxRetries ev) i) ∧
    ContainsStr (prompt ++ retryBlock 1 maxRetries ev) rs.approach ∧
    (∀ f ∈ rs.focusAreas, ContainsStr (prompt ++ retryBlock 1 maxRetries ev) f) := by
  have hblock : retryBlock 1 maxRetries ev =
      "\n\n**" ++ "RETRY ATTEMPT 1/2" ++ "**\n\n**Previous Issues:**\n" ++
      joinWith "\n" ev.issues ++ "\n\n**Retry Strategy:**\n" ++ rs.approach ++
      "\n\n**Focus Areas:**\n" ++ joinWith "\n" rs.focusAreas := by
    rw [retryBlock, hrs]
    rfl
  refine ⟨?_, ?_, rfl, ?_, ?_, ?_, ?_⟩
  · unfold runRetryLoop
    unfold runLoopAux
    rw [hst]
    simp only [hev]
    rw [if_neg (show ¬ maxRetries < 0 by decide), dif_pos ⟨hretry, by decide⟩]
    simp only [List.get?]
    exact runLoopAux_promptsUsed_first st evalF plan 1 _ (by decide)
  · unfold runRetryLoop
    unfold runLoopAux
    rw [hst]
    simp only [hev]
    rw [if_neg (show ¬ maxRetries < 0 by decide), dif_pos ⟨hretry, by decide⟩]
    rfl
  · rw [hblock]
    exact containsStr_append_right prompt <| containsStr_append_left _ <|
      containsStr_append_left _ <| containsStr_append_left _ <|
      containsStr_append_left _ <| containsStr_append_left _ <|
      containsStr_append_left _ <|
      containsStr_append_right "\n\n**" (containsStr_self _)
  · intro i hi
    rw [hblock]
    exact containsStr_append_right prompt <| containsStr_append_left _ <|
      containsStr_append_left _ <| containsStr_append_left _ <|
      containsStr_append_left _ <|
      containsStr_append_right _ (containsStr_joinWith "\n" hi)
  · rw [hblock]
    exact containsStr_append_right prompt <| containsStr_append_left _ <|
      containsStr_append_left _ <|
      containsStr_append_right _ (containsStr_self rs.approach)
  · intro f hf
    rw [hblock]
    exact containsStr_append_right prompt <|
      containsStr_append_right _ (containsStr_joinWith "\n" hf)

/-- Witness for C5: scenario C of the spec — `quality='poor'`,
`shouldRetry=true`, `retryStrategy={approach:'retry', focusAreas:['x'],
modifications:['y']}`, `issues:['z']` on the first attempt. -/
theorem retry_prompt_augmentation_witness :
    ContainsStr
      ("SYS" ++ retryBlock 1 maxRetries
        { quality := Quality.poor, score := 0.2, completeness := 0.2,
          correctness := 0.2, issues := ["z"], successes := [],
          recommendations := [], shouldRetry := true, shouldProceed := false,
          retryStrategy := some ⟨"retry", ["x"], ["y"]⟩, duration := 0 })
      "RETRY ATTEMPT 1/2" ∧
    ContainsStr
      ("SYS" ++ retryBlock 1 maxRetries
        { quality := Quality.poor, score := 0.2, completeness := 0.2,
          correctness := 0.2, issues := ["z"], successes := [],
          recommendations := [], shouldRetry := true, shouldProceed := false,
          retryStrategy := some ⟨"retry", ["x"], ["y"]⟩, duration := 0 })
      "z" := by
  have h := retry_prompt_augmentation
    (fun _ => .ok ⟨"text", "stop"⟩)
    (fun _ => .ok
      { quality := Quality.poor, score := 0.2, completeness := 0.2,
        correctness := 0.2, issues := ["z"], successes := [],
        recommendations := [], shouldRetry := true, shouldProceed := false,
        retryStrategy := some ⟨"retry", ["x"], ["y"]⟩, duration := 0 })
    ⟨[]⟩ "SYS" ⟨"text", "stop"⟩
    { quality := Quality.poor, score := 0.2, completeness := 0.2,
      correctness := 0.2, issues := ["z"], successes := [],
      recommendations := [], shouldRetry := true, shouldProceed := false,
      retryStrategy := some ⟨"retry", ["x"], ["y"]⟩, duration := 0 }
    ⟨"retry", ["x"], ["y"]⟩ rfl rfl (by decide) rfl
  exact ⟨h.2.2.2.1, h.2.2.2.2.1 "z" (by simp)⟩

end Opulent

namespace Opulent

/-- `l₂` is a literal prefix of `l₁` (character lists). -/
def startsWithChars : List Char → List Char → Bool
  | _, [] => true
  | [], _ :: _ => false
  | c :: cs, p :: ps => c == p && startsWithChars cs ps

/-- `pat` occurs contiguously in `s` (character lists). -/
def hasSubChars : List Char → List Char → Bool
  | [], p => p.isEmpty
  | c :: cs, p => startsWithChars (c :: cs) p || hasSubChars cs p

/-- JS `String.prototype.includes` (decidable form). -/
def strIncludes (s pat : String) : Bool := hasSubChars s.data pat.data

/-- JS `String.prototype.toLowerCase` (character-wise, which is exact for
the ASCII keywords involved). -/
def toLowerStr (s : String) : String := ⟨s.data.map Char.toLower⟩

/-- JS `Math.min` on two numbers (rationals here). -/
def ratMin (a b : ℚ) : ℚ := if a ≤ b then a else b

/-- JS `Math.max` on two numbers (rationals here). -/
def ratMax (a b : ℚ) : ℚ := if b ≤ a then a else b

/-- Longest leading run of non-whitespace characters (the `[^\s]+` part of
the planner's URL regex) together with the remaining input. -/
def takeNonSpace : List Char → List Char × List Char
  | [] => ([], [])
  | c :: cs =>
    if c.isWhitespace then ([], c :: cs)
    else
      let (m, r) := takeNonSpace cs
      (c :: m, r)

/-- Left-to-right non-overlapping matches of the planner's URL regex
`https?:\/\/[^\s]+` (JS `String.prototype.match` with the `g` flag):
at each position try `https://` then `http://`, require at least one
non-space character after the scheme, and continue after the match.  The
fuel argument (instantiated with the input length, an upper bound on the
number of scanning steps) makes the recursion structural. -/
def findUrlsGo : Nat → List Char → List (List Char)
  | 0, _ => []
  | _, [] => []
  | fuel + 1, c :: cs =>
    if startsWithChars (c :: cs) "https://".data then
      let (body, rest) := takeNonSpace ((c :: cs).drop 8)
      if body.isEmpty then findUrlsGo fuel cs
      else ("https://".data ++ body) :: findUrlsGo fuel rest
    else if startsWithChars (c :: cs) "http://".data then
      let (body, rest) := takeNonSpace ((c :: cs).drop 7)
      if body.isEmpty then findUrlsGo fuel cs
      else ("http://".data ++ body) :: findUrlsGo fuel rest
    else findUrlsGo fuel cs

/-- `userQuery.match(/https?:\/\/[^\s]+/g)`, as the list of matches
(`[]` plays the role of JS `null`). -/
def findUrls (s : String) : List (List Char) := findUrlsGo s.data.length s.data

/-- `calculateComplexityScore` (`src/TESTING-WITH-REAL-API.md` lines
1039-1077): base 0.2 plus additive keyword contributions, capped at 1.0.
The optional `steps` argument models the JS optional parameter (the
fallback-plan call site passes only the query, i.e. `none`); only its
length is inspected. -/
def calculateComplexityScore (userQuery : String) (steps : Option (List Unit)) : ℚ :=
  let query := toLowerStr userQuery
  let complexity : ℚ := 0.2
  let hasMultipleSteps :=
    (["then", "and", "after", "next", "finally"]).any (fun i => strIncludes query i) ||
    (match steps with | some l => decide (l.length > 2) | none => false)
  let complexity := if hasMultipleSteps then complexity + 0.3 else complexity
  let hasFormInteraction :=
    (["fill", "form", "input", "submit", "register", "sign up", "login"]).any
      (fun i => strIncludes query i)
  let complexity := if hasFormInteraction then complexity + 0.25 else complexity
  let hasNavigation :=
    (["navigate", "browse", "click", "menu", "tab", "page"]).any
      (fun i => strIncludes query i)
  let complexity := if hasNavigation then complexity + 0.15 else complexity
  let hasSearch :=
    (["search", "find", "filter", "sort", "query"]).any (fun i => strIncludes query i)
  let complexity := if hasSearch then complexity + 0.2 else complexity
  let hasDynamicContent :=
    (["load", "wait", "ajax", "js", "javascript", "dynamic"]).any
      (fun i => strIncludes query i)
  let complexity := if hasDynamicContent then complexity + 0.15 else complexity
  let urlMatch := findUrls userQuery
  let complexity := if urlMatch.length > 1 then complexity + 0.1 else complexity
  -- `if (urlMatch && urlMatch[0].includes('?'))`: at least one match whose
  -- first element contains a question mark
  let complexity :=
    if Option.any (fun first => first.contains '?') urlMatch.head? then
      complexity + 0.1
    else complexity
  ratMin complexity 1

/-- `calculateConfidence` (`src/TESTING-WITH-REAL-API.md` lines 1082-1107):
base 0.9, minus 0.3·complexity, +0.05 for clarity keywords, −0.2 for vague
keywords, −0.1 when the query names no destination (no `https?://` match
and no "navigate"), +0.1 for valid steps, clamped to [0.1, 1.0]. -/
def calculateConfidence (userQuery : String) (complexityScore : ℚ)
    (hasValidSteps : Bool) : ℚ :=
  let confidence : ℚ := 0.9
  let confidence := confidence - complexityScore * 0.3
  let hasClearDirection :=
    (["navigate to", "go to", "open", "visit", "browse to"]).any
      (fun i => strIncludes (toLowerStr userQuery) i)
  let confidence := if hasClearDirection then confidence + 0.05 else confidence
  let hasVagueLanguage :=
    (["maybe", "perhaps", "try", "might", "could", "somehow"]).any
      (fun i => strIncludes (toLowerStr userQuery) i)
  let confidence := if hasVagueLanguage then confidence - 0.2 else confidence
  let confidence :=
    if !(strIncludes userQuery "http://" || strIncludes userQuery "https://") &&
       !(strIncludes (toLowerStr userQuery) "navigate")
    then confidence - 0.1 else confidence
  let confidence := if hasValidSteps then confidence + 0.1 else confidence
  ratMax (ratMin confidence 1) 0.1

end Opulent

namespace Opulent

/-- A raw `fallbackAction` object as the model may produce it, possibly with
an (invalid) nested `fallbackAction` key.  Absent string fields are
modelled as `""` (both are falsy to the JS `||` defaults used by the
repair). -/
inductive RawFallback where
  | mk (action target reasoning : String) (nested : Option RawFallback)

def RawFallback.action : RawFallback → String
  | .mk a _ _ _ => a

def RawFallback.target : RawFallback → String
  | .mk _ t _ _ => t

def RawFallback.reasoning : RawFallback → String
  | .mk _ _ r _ => r

def RawFallback.nested : RawFallback → Option RawFallback
  | .mk _ _ _ n => n

/-- A raw plan step as parsed from model output (`instructionSchema` input,
`src/TESTING-WITH-REAL-API.md` lines 645-659).  Numbers are rationals
(`none` models a missing or non-numeric value); `action` is an arbitrary
string before validation. -/
structure RawStep where
  stepNo : ℚ
  action : String
  target : String
  reasoning : String
  expectedOutcome : String
  validationCriteria : Option String
  fallbackAction : Option RawFallback

/-- A raw plan object (`planSchema` input, `src/TESTING-WITH-REAL-API.md`
lines 661-671).  `none` in an `Option` field models a missing,
non-numeric, or non-array value. -/
structure RawPlan where
  objective : String
  approach : String
  steps : List RawStep
  criticalPaths : Option (List ℚ)
  estimatedSteps : Option ℚ
  complexityScore : Option ℚ
  potentialIssues : Option (List String)
  optimizations : Option (List String)

/-- A raw planner response (`evaluationSchema` input,
`src/TESTING-WITH-REAL-API.md` lines 673-678).  `planConfidence` models a
stray `plan.confidence` key (the repair pass hoists it to the root; the
strict plan schema would reject it). -/
structure RawResult where
  plan : RawPlan
  planConfidence : Option ℚ
  optimizedQuery : Option String
  gaps : Option (List String)
  confidence : Option ℚ

/-- The closed action enum of `instructionSchema`:
`z.enum(['navigate', 'click', 'type', 'type_text', 'press_key', 'scroll',
'wait', 'getPageContext'])`. -/
def eightActions : List String :=
  ["navigate", "click", "type", "type_text", "press_key", "scroll", "wait",
   "getPageContext"]

/-- `fallbackAction` sub-schema validity: all three fields within their
length bounds and — because the object schema is `.strict()` with no
`fallbackAction` key — no nested fallback. -/
def fallbackSchemaValid : Option RawFallback → Bool
  | none => true
  | some fb =>
    decide (1 ≤ fb.action.length) && decide (1 ≤ fb.target.length) &&
    decide (10 ≤ fb.reasoning.length) && fb.nested.isNone

/-- `instructionSchema` validity for one step. -/
def stepSchemaValid (s : RawStep) : Bool :=
  decide (s.stepNo.den = 1) && decide (1 ≤ s.stepNo) &&
  eightActions.contains s.action &&
  decide (1 ≤ s.target.length) &&
  decide (10 ≤ s.reasoning.length) &&
  decide (10 ≤ s.expectedOutcome.length) &&
  (match s.validationCriteria with
   | none => true
   | some v => decide (10 ≤ v.length)) &&
  fallbackSchemaValid s.fallbackAction

/-- `planSchema` validity (strictness makes a stray `plan.confidence` key,
checked separately in `evalSchemaValid`, invalid). -/
def planSchemaValid (p : RawPlan) : Bool :=
  decide (10 ≤ p.objective.length) && decide (20 ≤ p.approach.length) &&
  decide (1 ≤ p.steps.length) && decide (p.steps.length ≤ 50) &&
  p.steps.all stepSchemaValid &&
  (match p.criticalPaths with
   | some l => l.all fun q => decide (q.den = 1) && decide (1 ≤ q)
   | none => false) &&
  (match p.estimatedSteps with
   | some q => decide (q.den = 1) && decide (1 ≤ q) && decide (q ≤ 50)
   | none => false) &&
  (match p.complexityScore with
   | some q => decide (0 ≤ q) && decide (q ≤ 1)
   | none => false) &&
  (match p.potentialIssues with
   | some l => decide (l.length ≤ 10) && l.all fun i => decide (5 ≤ i.length)
   | none => false) &&
  (match p.optimizations with
   | some l => decide (l.length ≤ 10) && l.all fun i => decide (5 ≤ i.length)
   | none => false)

/-- `evaluationSchema` validity for the whole planner response. -/
def evalSchemaValid (r : RawResult) : Bool :=
  planSchemaValid r.plan &&
  decide (r.planConfidence = none) &&
  (match r.confidence with
   | some q => decide (0 ≤ q) && decide (q ≤ 1)
   | none => false) &&
  (match r.gaps with
   | some l => decide (l.length ≤ 5)
   | none => true)

/-- The synonym table of the repair pass (`actionMap` in
`experimental_repairText`, `src/TESTING-WITH-REAL-API.md` lines 833-841). -/
def actionMap (a : String) : Option String :=
  if a = "waitForElement" then some "wait"
  else if a = "waitFor" then some "wait"
  else if a = "getContext" then some "getPageContext"
  else if a = "getPage" then some "getPageContext"
  else if a = "clickElement" then some "click"
  else if a = "typeText" then some "type"
  else if a = "scrollPage" then some "scroll"
  else none

/-- `validActions` of the repair pass (`src/TESTING-WITH-REAL-API.md` line
825) — note: only six of the eight schema actions. -/
def validActions : List String :=
  ["navigate", "click", "type", "scroll", "wait", "getPageContext"]

/-- Action repair: `if (step.action && !validActions.includes(step.action))
step.action = actionMap[step.action] || 'wait'`.  The empty string is falsy
in JS, so it is left untouched (and later fails schema validation). -/
def repairAction (a : String) : String :=
  if !(a = "") && !(validActions.contains a) then (actionMap a).getD "wait"
  else a

/-- Fallback flattening: `if (step.fallbackAction?.fallbackAction)` replace
the fallback with a single-level record, each field defaulted through
JS `||`. -/
def repairFallback : Option RawFallback → Option RawFallback
  | none => none
  | some fb =>
    if fb.nested.isSome then
      some (RawFallback.mk
        (if fb.action = "" then "wait" else fb.action)
        (if fb.target = "" then "1" else fb.target)
        (if fb.reasoning = "" then "Fallback action" else fb.reasoning)
        none)
    else some fb

/-- Per-step repair inside `experimental_repairText`. -/
def repairStep (s : RawStep) : RawStep :=
  { s with action := repairAction s.action,
           fallbackAction := repairFallback s.fallbackAction }

/-- The default step injected when `steps` is empty
(`src/TESTING-WITH-REAL-API.md` lines 874-885). -/
def defaultContextStep : RawStep :=
  { stepNo := 1
    action := "getPageContext"
    target := "current_page"
    reasoning := "Need to understand current page state before proceeding"
    expectedOutcome := "Page context retrieved (title, text, links, forms)"
    validationCriteria := none
    fallbackAction := none }

/-- Root-level fixes of the `experimental_repairText` repair pass
(`src/TESTING-WITH-REAL-API.md` lines 805-817): hoist a nested
`plan.confidence` to the root, then default a falsy root `confidence`
(missing or 0) to 0.5. -/
def repairConfidence (r : RawResult) : RawResult :=
  let r := if r.planConfidence.isSome && decide (r.confidence = none) then
      { r with confidence := r.planConfidence, planConfidence := none }
    else r
  if r.confidence.isNone ∨ r.confidence = some 0 then
    { r with confidence := some 0.5 }
  else r

/-- Repair stage: `parsed.plan.steps = parsed.plan.steps.map(...)`
(`src/TESTING-WITH-REAL-API.md` lines 826-871). -/
def repairStepsStage (p : RawPlan) : RawPlan :=
  { p with steps := p.steps.map repairStep }

/-- Repair stage: empty `steps` replaced by the default `getPageContext`
step, with `estimatedSteps := 1` and `criticalPaths := [1]`
(`src/TESTING-WITH-REAL-API.md` lines 873-886). -/
def repairEmptyStage (p : RawPlan) : RawPlan :=
  if p.steps.isEmpty then
    { p with steps := [defaultContextStep], estimatedSteps := some 1,
             criticalPaths := some [1] }
  else p

/-- Repair stage: non-numeric `complexityScore` defaulted to 0.5
(`src/TESTING-WITH-REAL-API.md` lines 888-892). -/
def repairComplexityStage (p : RawPlan) : RawPlan :=
  if p.complexityScore.isNone then { p with complexityScore := some 0.5 }
  else p

/-- Repair stage: non-numeric `estimatedSteps` set from
`steps?.length || 1` (`src/TESTING-WITH-REAL-API.md` lines 893-896). -/
def repairEstimatedStage (p : RawPlan) : RawPlan :=
  if p.estimatedSteps.isNone then
    { p with
      estimatedSteps := some (if p.steps.length = 0 then (1 : ℚ) else (p.steps.length : ℚ)) }
  else p

/-- Repair stage: non-array `criticalPaths` defaulted to `[1]`
(`src/TESTING-WITH-REAL-API.md` lines 899-902). -/
def repairCriticalStage (p : RawPlan) : RawPlan :=
  if p.criticalPaths.isNone then { p with criticalPaths := some [1] }
  else p

/-- Repair stage: non-array `potentialIssues` defaulted to `[]`
(`src/TESTING-WITH-REAL-API.md` lines 903-906). -/
def repairIssuesStage (p : RawPlan) : RawPlan :=
  if p.potentialIssues.isNone then { p with potentialIssues := some ([] : List String) }
  else p

/-- Repair stage: non-array `optimizations` defaulted to `[]`
(`src/TESTING-WITH-REAL-API.md` lines 907-910). -/
def repairOptStage (p : RawPlan) : RawPlan :=
  if p.optimizations.isNone then { p with optimizations := some ([] : List String) }
  else p

/-- Plan-level fixes of the `experimental_repairText` repair pass
(`src/TESTING-WITH-REAL-API.md` lines 819-910), in source order. -/
def repairPlanFields (p : RawPlan) : RawPlan :=
  repairOptStage (repairIssuesStage (repairCriticalStage (repairEstimatedStage
    (repairComplexityStage (repairEmptyStage (repairStepsStage p))))))

/-- The whole `experimental_repairText` repair pass
(`src/TESTING-WITH-REAL-API.md` lines 800-911): root-level confidence
fixes followed by the plan-level fixes. -/
def repairResult (r : RawResult) : RawResult :=
  let r := repairConfidence r
  { r with plan := repairPlanFields r.plan }

/-- The fallback planning result returned from the planner's `catch`
(`src/TESTING-WITH-REAL-API.md` lines 1013-1035). -/
def fallbackPlanningResult (userQuery : String) : RawResult :=
  { plan :=
      { objective := userQuery
        approach := "Sequential execution with validation"
        steps :=
          [ { stepNo := 1
              action := "getPageContext"
              target := "current_page"
              reasoning := "Need to understand current page state before proceeding"
              expectedOutcome := "Page context retrieved (title, text, links, forms)"
              validationCriteria := some "Context object returned with title and URL"
              fallbackAction := none } ]
        criticalPaths := some [1]
        estimatedSteps := some 1
        complexityScore := some (calculateComplexityScore userQuery none)
        potentialIssues := some ["Planning generation failed, using fallback"]
        optimizations := some [] }
    planConfidence := none
    optimizedQuery := none
    gaps := none
    confidence := some (calculateConfidence userQuery
      (calculateComplexityScore userQuery none) false) }

/-- `generateExecutionPlan` (`src/TESTING-WITH-REAL-API.md` lines 794-1036)
as a function of one model response.  `generateObject` returns the parsed
object only if it passes `evaluationSchema` — either directly or after the
`experimental_repairText` pass; any other outcome (unparseable text,
still-invalid repaired output, transport error — all modelled by the
remaining cases) falls into the `catch`, which returns the fallback plan.
Internal generation retries are additional independent samples of
`modelOut` and are covered by quantifying over it. -/
def generateExecutionPlan (userQuery : String) (modelOut : Option RawResult) :
    RawResult :=
  match modelOut with
  | none => fallbackPlanningResult userQuery
  | some raw =>
    if evalSchemaValid raw then raw
    else if evalSchemaValid (repairResult raw) then repairResult raw
    else fallbackPlanningResult userQuery

/-- No second-level fallback: the claim's `fallbackAction.fallbackAction`
absence, as a predicate on a step. -/
def NoNestedFallback (s : RawStep) : Prop :=
  match s.fallbackAction with
  | some fb => fb.nested = none
  | none => True

end Opulent

namespace Opulent

theorem evalSchemaValid_step_props {r : RawResult} (h : evalSchemaValid r = true) :
    r.plan.steps ≠ [] ∧
    ∀ s ∈ r.plan.steps, s.action ∈ eightActions ∧ NoNestedFallback s := by
  have hplan : planSchemaValid r.plan = true := by
    simp only [evalSchemaValid, Bool.and_eq_true] at h
    exact h.1.1.1
  simp only [planSchemaValid, Bool.and_eq_true, decide_eq_true_eq,
    List.all_eq_true] at hplan
  obtain ⟨⟨⟨⟨⟨⟨⟨⟨⟨_, _⟩, hlen⟩, _⟩, hall⟩, _⟩, _⟩, _⟩, _⟩, _⟩ := hplan
  refine ⟨?_, ?_⟩
  · intro hnil
    rw [hnil] at hlen
    simp at hlen
  · intro s hs
    have hstep := hall s hs
    simp only [stepSchemaValid, Bool.and_eq_true, decide_eq_true_eq] at hstep
    obtain ⟨⟨⟨⟨⟨⟨⟨_, _⟩, hact⟩, _⟩, _⟩, _⟩, _⟩, hfb⟩ := hstep
    constructor
    · simpa using hact
    · unfold NoNestedFallback
      cases hcase : s.fallbackAction with
      | none => trivial
      | some fb =>
        rw [hcase] at hfb
        simp only [fallbackSchemaValid, Bool.and_eq_true] at hfb
        exact Option.isNone_iff_eq_none.mp hfb.2

theorem fallbackPlanningResult_step_props (userQuery : String) :
    (fallbackPlanningResult userQuery).plan.steps ≠ [] ∧
    ∀ s ∈ (fallbackPlanningResult userQuery).plan.steps,
      s.action ∈ eightActions ∧ NoNestedFallback s := by
  refine ⟨by simp [fallbackPlanningResult], ?_⟩
  intro s hs
  simp only [fallbackPlanningResult, List.mem_singleton] at hs
  subst hs
  exact ⟨by simp [eightActions], by trivial⟩

/-- C6: every plan the planner returns — straight from the model (schema
valid), after the deterministic repair pass, or the fallback plan — has
every `step.action` in the closed 8-action enum, a non-empty `steps`
sequence, and no nested `fallbackAction.fallbackAction`; moreover the
repair maps each known invalid synonym into the enum, defaults unknown
non-empty actions to `"wait"`, and replaces an empty `steps` with the
single default `getPageContext` step. -/
theorem planner_plan_validity (userQuery : String) (modelOut : Option RawResult) :
    ((generateExecutionPlan userQuery modelOut).plan.steps ≠ [] ∧
      ∀ s ∈ (generateExecutionPlan userQuery modelOut).plan.steps,
        s.action ∈ eightActions ∧ NoNestedFallback s) ∧
    (∀ a m, actionMap a = some m → m ∈ eightActions) ∧
    (∀ s : RawStep, s.action ≠ "" → validActions.contains s.action = false →
      actionMap s.action = none → (repairStep s).action = "wait") ∧
    (∀ r : RawResult, r.plan.steps = [] →
      (repairResult r).plan.steps = [defaultContextStep]) := by
  refine ⟨?_, ?_, ?_, ?_⟩
  · match modelOut with
    | none => exact fallbackPlanningResult_step_props userQuery
    | some raw =>
      simp only [generateExecutionPlan]
      by_cases h1 : evalSchemaValid raw = true
      · rw [if_pos h1]
        exact evalSchemaValid_step_props h1
      · rw [if_neg h1]
        by_cases h2 : evalSchemaValid (repairResult raw) = true
        · rw [if_pos h2]
          exact evalSchemaValid_step_props h2
        · rw [if_neg h2]
          exact fallbackPlanningResult_step_props userQuery
  · intro a m h
    unfold actionMap at h
    split_ifs at h <;> simp_all [eightActions]
  · intro s h1 h2 h3
    have h2' : s.action ∉ validActions := by simpa using h2
    simp [repairStep, repairAction, h1, h2', h3]
  · intro r h
    have hplan : (repairConfidence r).plan = r.plan := by
      unfold repairConfidence
      dsimp only
      split_ifs <;> rfl
    have hOpt : ∀ p : RawPlan, (repairOptStage p).steps = p.steps := by
      intro p
      unfold repairOptStage
      split_ifs <;> rfl
    have hIss : ∀ p : RawPlan, (repairIssuesStage p).steps = p.steps := by
      intro p
      unfold repairIssuesStage
      split_ifs <;> rfl
    have hCri : ∀ p : RawPlan, (repairCriticalStage p).steps = p.steps := by
      intro p
      unfold repairCriticalStage
      split_ifs <;> rfl
    have hEst : ∀ p : RawPlan, (repairEstimatedStage p).steps = p.steps := by
      intro p
      unfold repairEstimatedStage
      split_ifs <;> rfl
    have hCom : ∀ p : RawPlan, (repairComplexityStage p).steps = p.steps := by
      intro p
      unfold repairComplexityStage
      split_ifs <;> rfl
    have hEmp : (repairEmptyStage (repairStepsStage r.plan)).steps =
        [defaultContextStep] := by
      unfold repairEmptyStage repairStepsStage
      rw [h]
      rfl
    have hsteps : (repairPlanFields r.plan).steps = [defaultContextStep] := by
      unfold repairPlanFields
      rw [hOpt, hIss, hCri, hEst, hCom, hEmp]
    unfold repairResult
    dsimp only
    rw [hplan]
    exact hsteps

/-- Witness for C6: the fallback plan's single step is a `getPageContext`
step; the synonym `"waitForElement"` is repaired to `"wait"` (an enum
member); an unknown action `"frobnicate"` defaults to `"wait"`; an empty
`steps` array is replaced by the default context step. -/
theorem planner_plan_validity_witness :
    (generateExecutionPlan "open example.com" none).plan.steps ≠ [] ∧
    "wait" ∈ eightActions ∧
    (repairStep
      { stepNo := 1, action := "frobnicate", target := "t",
        reasoning := "needs ten chars", expectedOutcome := "needs ten chars",
        validationCriteria := none, fallbackAction := none }).action = "wait" ∧
    (repairResult
      { plan :=
          { objective := "", approach := "", steps := [],
            criticalPaths := none, estimatedSteps := none,
            complexityScore := none, potentialIssues := none,
            optimizations := none },
        planConfidence := none, optimizedQuery := none, gaps := none,
        confidence := none }).plan.steps = [defaultContextStep] := by
  have h := planner_plan_validity "open example.com" none
  refine ⟨h.1.1, ?_, ?_, ?_⟩
  · exact h.2.1 "waitForElement" "wait" rfl
  · exact h.2.2.1 _ (by decide) (by decide) rfl
  · exact h.2.2.2 _ rfl

end Opulent

namespace Opulent

/-- Modelled from the spec's words (P2 and §4.2), for comparison with the
code: confidence computed as `0.9 - 0.3*complexityScore`, adjusted ±0.2
for clarity/vagueness keyword matches, clamped to [0.1, 1.0]. -/
def specClaimConfidence (userQuery : String) (complexityScore : ℚ) : ℚ :=
  let base : ℚ := 0.9 - 0.3 * complexityScore
  let base :=
    if (["navigate to", "go to", "open", "visit", "browse to"]).any
        (fun i => strIncludes (toLowerStr userQuery) i) then base + 0.2 else base
  let base :=
    if (["maybe", "perhaps", "try", "might", "could", "somehow"]).any
        (fun i => strIncludes (toLowerStr userQuery) i) then base - 0.2 else base
  ratMax (ratMin base 1) 0.1

theorem ite_add_nonneg (c : Prop) [Decidable c] {x k : ℚ} (hx : 0 ≤ x)
    (hk : 0 ≤ k) : 0 ≤ if c then x + k else x := by
  split_ifs
  · exact add_nonneg hx hk
  · exact hx

theorem le_ratMin {a b c : ℚ} (h1 : c ≤ a) (h2 : c ≤ b) : c ≤ ratMin a b := by
  unfold ratMin
  split_ifs <;> assumption

theorem ratMin_le_right (a b : ℚ) : ratMin a b ≤ b := by
  unfold ratMin
  split_ifs with h
  · exact h
  · exact le_refl b

theorem le_ratMax_right (a b : ℚ) : b ≤ ratMax a b := by
  unfold ratMax
  split_ifs with h
  · exact h
  · exact le_refl b

theorem ratMax_le {a b c : ℚ} (h1 : a ≤ c) (h2 : b ≤ c) : ratMax a b ≤ c := by
  unfold ratMax
  split_ifs <;> assumption

/-- Counterexample for C8: on the query `"open x"` the code's fallback
confidence is 0.79 (clarity adds only 0.05, and the no-destination check
subtracts a further 0.1) while the claimed formula
(`0.9 - 0.3*complexityScore`, ±0.2 for clarity/vagueness, clamped) yields
1; so the claimed confidence formula is false of the code. -/
theorem confidence_formula_counterexample :
    calculateComplexityScore "open x" none = 0.2 ∧
    calculateConfidence "open x" (calculateComplexityScore "open x" none) false
      = 0.79 ∧
    specClaimConfidence "open x" (calculateComplexityScore "open x" none) = 1 ∧
    (0.79 : ℚ) ≠ 1 := by
  have hc : calculateComplexityScore "open x" none = 0.2 := by
    norm_num +decide [calculateComplexityScore, ratMin]
  refine ⟨hc, ?_, ?_, by norm_num⟩
  · rw [hc]
    norm_num +decide [calculateConfidence, ratMin, ratMax]
  · rw [hc]
    norm_num +decide [specClaimConfidence, ratMin, ratMax]

set_option maxHeartbeats 1600000 in
/-- C8 (amended): for every fixed query the fallback plan's
`complexityScore` and `confidence` are the values of the deterministic
pure functions `calculateComplexityScore` / `calculateConfidence` (no
randomness); `complexityScore` lies in [0,1] (additive keyword
contributions, capped at 1.0); `confidence` lies in [0.1, 1.0] and equals
`0.9 - 0.3*complexityScore`, adjusted +0.05 for clarity keyword matches,
−0.2 for vagueness keyword matches, −0.1 when the query names no
destination (no `https?://` and no "navigate"), +0.1 for valid steps
(`false` at the fallback call site), clamped to [0.1, 1.0]. -/
theorem fallback_heuristics_corrected (userQuery : String) (c : ℚ) (hv : Bool)
    (st : Option (List Unit)) :
    (fallbackPlanningResult userQuery).plan.complexityScore =
      some (calculateComplexityScore userQuery none) ∧
    (fallbackPlanningResult userQuery).confidence =
      some (calculateConfidence userQuery
        (calculateComplexityScore userQuery none) false) ∧
    0 ≤ calculateComplexityScore userQuery st ∧
    calculateComplexityScore userQuery st ≤ 1 ∧
    0.1 ≤ calculateConfidence userQuery c hv ∧
    calculateConfidence userQuery c hv ≤ 1 ∧
    calculateConfidence userQuery c hv =
      ratMax (ratMin ((0.9 - c * 0.3)
        + (if (["navigate to", "go to", "open", "visit", "browse to"]).any
              (fun i => strIncludes (toLowerStr userQuery) i) then (0.05 : ℚ) else 0)
        - (if (["maybe", "perhaps", "try", "might", "could", "somehow"]).any
              (fun i => strIncludes (toLowerStr userQuery) i) then (0.2 : ℚ) else 0)
        - (if !(strIncludes userQuery "http://" || strIncludes userQuery "https://")
              && !(strIncludes (toLowerStr userQuery) "navigate") then (0.1 : ℚ) else 0)
        + (if hv then (0.1 : ℚ) else 0)) 1) 0.1 := by
  refine ⟨rfl, rfl, ?_, ?_, ?_, ?_, ?_⟩
  · unfold calculateComplexityScore
    dsimp only
    refine le_ratMin ?_ (by norm_num)
    exact ite_add_nonneg _
      (ite_add_nonneg _
        (ite_add_nonneg _
          (ite_add_nonneg _
            (ite_add_nonneg _
              (ite_add_nonneg _
                (ite_add_nonneg _ (by norm_num) (by norm_num))
                (by norm_num))
              (by norm_num))
            (by norm_num))
          (by norm_num))
        (by norm_num))
      (by norm_num)
  · unfold calculateComplexityScore
    dsimp only
    exact ratMin_le_right _ _
  · unfold calculateConfidence
    dsimp only
    exact le_ratMax_right _ _
  · unfold calculateConfidence
    dsimp only
    exact ratMax_le (le_trans (ratMin_le_right _ _) (by norm_num)) (by norm_num)
  · unfold calculateConfidence
    dsimp only
    split_ifs <;> ring_nf

end Opulent

namespace Opulent

/-- The argument fields of a Gemini computer-use function call that the
side panel's confirmation gate and dispatch inspect
(`src/sidepanel.tsx`).  `hasCoords` models `args.x !== undefined &&
args.y !== undefined`; `clearBeforeTyping` models
`args.clear_before_typing !== false`. -/
structure GeminiArgs where
  text : Option String
  press_enter : Bool
  hasCoords : Bool
  clearBeforeTyping : Bool
deriving DecidableEq, Repr

/-- The page context `requiresUserConfirmation` fetches (url and text; a
fetch failure yields empty strings). -/
structure PageCtx where
  url : String
  text : String
deriving DecidableEq, Repr

/-- Consume exactly four JS `\d` digits, returning the rest. -/
def digits4 : List Char → Option (List Char)
  | a :: b :: c :: d :: rest =>
    if a.isDigit && b.isDigit && c.isDigit && d.isDigit then some rest else none
  | _ => none

/-- Consume an optional `[\s-]` separator (the separator class is disjoint
from `\d`, so the regex never needs to backtrack over it). -/
def optSep : List Char → List Char
  | [] => []
  | c :: rest => if c.isWhitespace || c = '-' then rest else c :: rest

/-- Match the card-number regex
`\d{4}[\s-]?\d{4}[\s-]?\d{4}[\s-]?\d{4}` at the head of the input. -/
def matchCardAt (l : List Char) : Bool :=
  match digits4 l with
  | none => false
  | some r1 =>
    match digits4 (optSep r1) with
    | none => false
    | some r2 =>
      match digits4 (optSep r2) with
      | none => false
      | some r3 => (digits4 (optSep r3)).isSome

/-- JS `text.match(/\d{4}[\s-]?\d{4}[\s-]?\d{4}[\s-]?\d{4}/)` truthiness:
the pattern matches at some position. -/
def hasCardNumber : List Char → Bool
  | [] => false
  | l@(_ :: t) => matchCardAt l || hasCardNumber t

/-- `requiresUserConfirmation` (`src/sidepanel.tsx` lines 1191-1239):
computes the page/input/form sensitivity conditions and, when any of them
(or the always-confirm list) applies, shows a `window.confirm` dialog and
returns the user's answer (`windowConfirm`); otherwise returns `false`
without asking. -/
def requiresUserConfirmation (functionName : String) (args : GeminiArgs)
    (page : PageCtx) (windowConfirm : Bool) : Bool :=
  let url := toLowerStr page.url
  let pageText := toLowerStr page.text
  let alwaysConfirm := ["key_combination"]
  let isSensitivePage :=
    strIncludes url "checkout" || strIncludes url "payment" ||
    strIncludes url "login" || strIncludes url "signin" ||
    strIncludes url "admin" || strIncludes url "delete" ||
    strIncludes url "remove" ||
    strIncludes pageText "checkout" || strIncludes pageText "payment" ||
    strIncludes pageText "purchase" || strIncludes pageText "confirm order" ||
    strIncludes pageText "delete" || strIncludes pageText "remove account"
  let isSensitiveInput := strIncludes functionName "type" &&
    ((match args.text with
      | some t => strIncludes (toLowerStr t) "password"
      | none => false) ||
     (match args.text with
      | some t => hasCardNumber t.data
      | none => false) ||
     strIncludes pageText "credit card" || strIncludes pageText "cvv" ||
     strIncludes pageText "social security")
  let isFormSubmission := functionName == "type_text_at" && args.press_enter
  if alwaysConfirm.contains functionName || isSensitivePage ||
      isSensitiveInput || isFormSubmission then
    windowConfirm
  else false

/-- What `executeBrowserAction`'s `switch` does with a function name: which
`executeTool` invocations it performs (in order), a purely local wait, or
the unknown-function error result. -/
inductive ActionOutcome where
  /-- The early return `{ success: false, error: 'Action cancelled by user',
  userCancelled: true }`. -/
  | cancelled
  /-- The dispatch runs `executeTool` for each listed tool name. -/
  | executed (tools : List String)
  /-- `wait`/`sleep`/`delay`/`wait_5_seconds`/history navigation: resolved
  locally (via timers or `chrome.tabs`), no `executeTool` call. -/
  | waitedLocally
  /-- `default`: `{ success: false, error: 'Unknown function: ...' }`. -/
  | unknownFunction
deriving DecidableEq, Repr

/-- The `switch (functionName)` dispatch of `executeBrowserAction`
(`src/sidepanel.tsx` lines 1251-1438), reduced to the `executeTool`
invocations each case performs (`type_text_at` additionally sends a
`keyboard_type` chrome message, which is not an `executeTool` call). -/
def dispatchGeminiFunction (functionName : String) (args : GeminiArgs) :
    ActionOutcome :=
  if ["click", "click_at", "mouse_click"].contains functionName then
    .executed ["click"]
  else if ["type", "type_text", "keyboard_input", "input_text"].contains functionName then
    .executed ["type"]
  else if ["scroll", "scroll_down", "scroll_up", "mouse_scroll"].contains functionName then
    .executed ["scroll"]
  else if ["navigate", "open_web_browser", "navigate_to", "go_to"].contains functionName then
    .executed ["navigate"]
  else if ["get_screenshot", "take_screenshot", "screenshot"].contains functionName then
    .executed ["screenshot"]
  else if ["get_page_info", "get_url", "get_page_content"].contains functionName then
    .executed ["getPageContext"]
  else if ["wait", "sleep", "delay"].contains functionName then .waitedLocally
  else if ["press_key", "key_press"].contains functionName then .executed ["type"]
  else if functionName == "type_text_at" then
    .executed ((if args.hasCoords then ["click"] else []) ++
      (if args.clearBeforeTyping then ["keyCombo", "pressKey"] else []) ++
      (if args.press_enter then ["pressKey"] else []))
  else if functionName == "key_combination" then .executed ["keyCombo"]
  else if functionName == "hover_at" then .executed ["hover"]
  else if ["scroll_document", "scroll_at"].contains functionName then
    .executed ["scroll"]
  else if functionName == "wait_5_seconds" then .waitedLocally
  else if ["go_back", "back", "go_forward", "forward"].contains functionName then
    .waitedLocally
  else if functionName == "search" then .executed ["navigate"]
  else if functionName == "drag_and_drop" then .executed ["dragDrop"]
  else .unknownFunction

/-- `executeBrowserAction` (`src/sidepanel.tsx` lines 1240-1438): runs the
confirmation gate, short-circuits to the cancelled result only for
`key_combination` / `type`-containing / `type_text_at` function names, and
otherwise dispatches regardless of the gate's answer. -/
def executeBrowserAction (functionName : String) (args : GeminiArgs)
    (page : PageCtx) (windowConfirm : Bool) : ActionOutcome :=
  let userConfirmed := requiresUserConfirmation functionName args page windowConfirm
  if !userConfirmed &&
      (["key_combination"].contains functionName ||
        strIncludes functionName "type" || functionName == "type_text_at") then
    .cancelled
  else dispatchGeminiFunction functionName args

/-- C7 (code bug): a `click` on a sensitive page (URL containing
"checkout") does reach the confirmation gate — with an approving answer
the gate returns `true`, with a rejecting answer `false` — yet after the
user rejects, `executeBrowserAction` still invokes `executeTool('click')`,
because its cancellation guard covers only `key_combination`,
`type`-containing names and `type_text_at`.  This contradicts the claim
(and the dialog's own "Proceed?" semantics): a rejected approval request
does result in the gated tool's execute being invoked. -/
theorem approval_rejection_not_honored :
    requiresUserConfirmation "click" ⟨none, false, false, true⟩
      ⟨"https://shop.example/checkout", ""⟩ true = true ∧
    requiresUserConfirmation "click" ⟨none, false, false, true⟩
      ⟨"https://shop.example/checkout", ""⟩ false = false ∧
    executeBrowserAction "click" ⟨none, false, false, true⟩
      ⟨"https://shop.example/checkout", ""⟩ false =
      ActionOutcome.executed ["click"] := by
  refine ⟨by decide, by decide, by decide⟩

end Opulent

namespace Opulent

/-- The slice of an SDK step result that `prepareStep` inspects
(`src/lib/streaming-enhanced.ts` line 200): its `toolCalls` array.  Each
entry's `Bool` records whether that tool call succeeded — environment
information the code does not inspect (it only looks at the array's
length). -/
structure PrevStepRec where
  toolCalls : List Bool
deriving DecidableEq, Repr

/-- The tool-choice merge of `prepareStep`
(`src/lib/streaming-enhanced.ts` lines 200-210):
`hasExecutedTool = steps.some(step => (step.toolCalls?.length || 0) > 0)`;
without an executed tool, `toolChoice` is forced to `'required'`;
otherwise an unset enhanced-config `toolChoice` defaults to `'auto'` and a
set one is kept. -/
def prepareStepToolChoice (steps : List PrevStepRec)
    (enhancedToolChoice : Option String) : Option String :=
  let hasExecutedTool := steps.any fun s => decide (0 < s.toolCalls.length)
  if !hasExecutedTool then some "required"
  else if enhancedToolChoice.isNone then some "auto"
  else enhancedToolChoice

/-- C9: as long as no tool call has occurred in the prior steps, the tool
choice passed to the model is forced to `'required'` (whatever the
enhanced configuration says); once at least one successful tool call has
occurred, the tool choice relaxes to `'auto'` unless the step
configuration explicitly sets it otherwise (in which case that value is
kept). -/
theorem toolChoice_gating (steps : List PrevStepRec) (cfg : Option String) :
    ((∀ s ∈ steps, s.toolCalls = []) →
      prepareStepToolChoice steps cfg = some "required") ∧
    ((∃ s ∈ steps, ∃ c ∈ s.toolCalls, c = true) →
      (cfg = none → prepareStepToolChoice steps cfg = some "auto") ∧
      ∀ x, cfg = some x → prepareStepToolChoice steps cfg = some x) := by
  constructor
  · intro hnone
    have h : (steps.any fun s => decide (0 < s.toolCalls.length)) = false := by
      simp only [List.any_eq_false, decide_eq_true_eq]
      intro s hs
      simp [hnone s hs]
    simp [prepareStepToolChoice, h]
  · rintro ⟨s, hs, c, hc, -⟩
    have h : (steps.any fun s => decide (0 < s.toolCalls.length)) = true := by
      simp only [List.any_eq_true, decide_eq_true_eq]
      refine ⟨s, hs, List.length_pos.mpr fun hnil => ?_⟩
      rw [hnil] at hc
      cases hc
    constructor
    · intro hcfg
      simp [prepareStepToolChoice, h, hcfg]
    · intro x hcfg
      simp [prepareStepToolChoice, h, hcfg]

/-- Witness for C9: no prior tool call forces `'required'`; one successful
tool call yields `'auto'` when unset and keeps an explicit `'none'`-like
setting otherwise. -/
theorem toolChoice_gating_witness :
    prepareStepToolChoice [] none = some "required" ∧
    prepareStepToolChoice [⟨[true]⟩] none = some "auto" ∧
    prepareStepToolChoice [⟨[true]⟩] (some "custom") = some "custom" := by
  have h0 := toolChoice_gating [] none
  have h1 := toolChoice_gating [⟨[true]⟩] none
  have h2 := toolChoice_gating [⟨[true]⟩] (some "custom")
  exact ⟨h0.1 (by simp),
    (h1.2 ⟨⟨[true]⟩, by simp, true, by simp, rfl⟩).1 rfl,
    (h2.2 ⟨⟨[true]⟩, by simp, true, by simp, rfl⟩).2 "custom" rfl⟩

end Opulent

namespace Opulent

/-- An entry of the `toolExecutions` list attached to the assistant
message (`src/lib/streaming-enhanced.ts`). -/
structure MsgToolExec where
  toolCallId : String
  toolName : String
  state : String
deriving DecidableEq, Repr

/-- The stream events of `result.fullStream` that touch the message's
`toolExecutions` list.  A `tool-call` event is `gated` when the approval
flow is enabled and `onApprovalRequired` answered `true` for it; missing
`toolCallId` / `toolName` fields are modelled as `none` (the handlers
default them to `"unknown"`). -/
inductive StreamEvent where
  | toolCall (toolCallId toolName : Option String) (gated : Bool)
  | toolResult (toolCallId toolName : Option String) (isError : Bool)
  | otherEvent
deriving DecidableEq, Repr

/-- The update both the ungated `tool-call` handler and the `tool-result`
handler apply (`src/lib/streaming-enhanced.ts` lines 441-465 and 501-527):
`findIndex` on `toolCallId`, replace in place when found, append
otherwise.  (Implemented by direct recursion: replace the first entry
with the same `toolCallId`, else append.) -/
def upsertToolExec : List MsgToolExec → MsgToolExec → List MsgToolExec
  | [], t => [t]
  | e :: es, t =>
    if e.toolCallId = t.toolCallId then t :: es else e :: upsertToolExec es t

/-- One stream event's effect on the message's `toolExecutions` list
(`src/lib/streaming-enhanced.ts` lines 375-528).  The gated `tool-call`
branch (lines 417-431) appends unconditionally
(`[...existingExecutions, toolExecution]`, no `findIndex`); the ungated
`tool-call` branch and the `tool-result` branch upsert. -/
def applyToolEvent (execs : List MsgToolExec) : StreamEvent → List MsgToolExec
  | .toolCall tid tname gated =>
    let toolCallId := tid.getD "unknown"
    let toolName := tname.getD "unknown"
    if gated then
      execs ++ [⟨toolCallId, toolName, "approval-pending"⟩]
    else
      upsertToolExec execs ⟨toolCallId, toolName, "input-streaming"⟩
  | .toolResult tid tname isError =>
    let toolCallId := tid.getD "unknown"
    let toolName := tname.getD "unknown"
    upsertToolExec execs
      ⟨toolCallId, toolName, if isError then "output-error" else "output-available"⟩
  | .otherEvent => execs

/-- The whole stream processing's effect on the `toolExecutions` list. -/
def processToolEvents (start : List MsgToolExec) (evs : List StreamEvent) :
    List MsgToolExec :=
  evs.foldl applyToolEvent start

/-- Whether an event takes the approval-pending append branch. -/
def eventGated : StreamEvent → Bool
  | .toolCall _ _ gated => gated
  | _ => false

theorem upsertToolExec_map_ids (l : List MsgToolExec) (t : MsgToolExec) :
    (upsertToolExec l t).map (·.toolCallId) =
      if (l.map (·.toolCallId)).contains t.toolCallId then
        l.map (·.toolCallId)
      else l.map (·.toolCallId) ++ [t.toolCallId] := by
  induction l with
  | nil => simp [upsertToolExec]
  | cons e es ih =>
    by_cases h : e.toolCallId = t.toolCallId
    · simp [upsertToolExec, h]
    · simp only [upsertToolExec, if_neg h, List.map_cons, ih,
        List.contains_cons]
      have hbeq : (t.toolCallId == e.toolCallId) = false := by
        simp only [beq_eq_false_iff_ne, ne_eq]
        exact fun hh => h hh.symm
      rw [hbeq]
      simp only [Bool.false_or]
      exact apply_ite (List.cons e.toolCallId) _ _ _

theorem upsertToolExec_nodup {l : List MsgToolExec} (t : MsgToolExec)
    (h : (l.map (·.toolCallId)).Nodup) :
    ((upsertToolExec l t).map (·.toolCallId)).Nodup := by
  rw [upsertToolExec_map_ids]
  split_ifs with hc
  · exact h
  · have : t.toolCallId ∉ l.map (·.toolCallId) := by
      simpa using hc
    simp [List.nodup_append, h, this]

/-- Counterexample for C10: two `tool-call` events without a `toolCallId`
(both defaulted to `"unknown"`), the second one gated: the gated branch
appends unconditionally, so the message's `toolExecutions` list ends up
with two entries carrying the same `toolCallId`. -/
theorem toolExecutions_duplicate_counterexample :
    (processToolEvents []
        [StreamEvent.toolCall none none false,
         StreamEvent.toolCall none none true]).map (·.toolCallId) =
      ["unknown", "unknown"] ∧
    ¬ ((processToolEvents []
        [StreamEvent.toolCall none none false,
         StreamEvent.toolCall none none true]).map (·.toolCallId)).Nodup := by
  refine ⟨by decide, by decide⟩

/-- C10 (amended): as long as no event takes the approval-pending branch
(approval flow disabled, or no call requires approval), the stream
processing preserves uniqueness of `toolCallId`s in the message's
`toolExecutions` list: an ungated `tool-call` or a `tool-result` whose
`toolCallId` already has an entry replaces that entry in place instead of
appending a duplicate.  (The gated `tool-call` branch appends
unconditionally and can create duplicates; see the counterexample.) -/
theorem toolExecutions_unique_ids (evs : List StreamEvent)
    (start : List MsgToolExec) (hstart : (start.map (·.toolCallId)).Nodup)
    (hnogate : ∀ e ∈ evs, eventGated e = false) :
    ((processToolEvents start evs).map (·.toolCallId)).Nodup := by
  induction evs generalizing start with
  | nil => exact hstart
  | cons e rest ih =>
    have hrest : ∀ e' ∈ rest, eventGated e' = false := fun e' he' =>
      hnogate e' (List.mem_cons_of_mem e he')
    have hstep : ((applyToolEvent start e).map (·.toolCallId)).Nodup := by
      cases e with
      | toolCall tid tname gated =>
        have hg : gated = false := by
          simpa [eventGated] using hnogate _ (List.mem_cons_self _ _)
        subst hg
        exact upsertToolExec_nodup _ hstart
      | toolResult tid tname isError => exact upsertToolExec_nodup _ hstart
      | otherEvent => exact hstart
    exact ih (applyToolEvent start e) hstep hrest

/-- Witness for C10's amended theorem: an ungated call, its result, and a
second distinct call keep the `toolCallId`s unique. -/
theorem toolExecutions_unique_ids_witness :
    ((processToolEvents []
        [StreamEvent.toolCall (some "call_1") (some "navigate") false,
         StreamEvent.toolResult (some "call_1") (some "navigate") false,
         StreamEvent.toolCall (some "call_2") (some "click") false]).map
      (·.toolCallId)).Nodup :=
  toolExecutions_unique_ids _ [] (by simp) (by decide)

end Opulent
